import Mathlib

/-!
Verification of the unlinked-assets scanner (`find-unlinked-assets.mjs`).

The script paginates through all assets of a content space (page size 100),
queries per asset how many entries link to it, collects the assets with zero
referencing entries into a report list, and writes that list to a JSON file.

This file gives a shallow embedding of the script:
* JavaScript values that matter to the script are modelled by small inductive
  types (`JSNum` for byte counts, `JSTitle` / `JSFile` for the possibly
  localized `fields.title` / `fields.file` values), with JavaScript truthiness
  made explicit.
* `Math.floor (Math.log bytes / Math.log 1024)` is modelled by its exact
  mathematical value `Nat.log 1024 bytes` (proved equal to the real-number
  floor expression below).
* `Number.prototype.toFixed 2` on the exact rational `num / den` is modelled
  by `toFixed2Of` (round half away from zero to two decimals, which is the
  ECMAScript rounding rule for nonnegative values).
* The remote repository and its two API calls (`getAssets`, `getEntries`) are
  modelled by a `Client` record holding the fixed asset list, the
  per-asset-id total of referencing entries, and error schedules saying which
  calls raise.
* The `while (hasMoreAssets)` loop is modelled by the fuel-indexed `scanLoop`;
  `findUnlinkedAssets` supplies fuel `assets.length + 1`, which is proved
  sufficient for every behaviour the theorems describe.
-/

namespace UnlinkedAssets

/-- A JavaScript number-ish value as it can reach `formatFileSize`:
absent (`undefined`), `NaN`, or an actual (nonnegative integral) number. -/
inductive JSNum where
  | undef
  | nan
  | num (n : Nat)
deriving DecidableEq

/-- JavaScript truthiness of a `JSNum`: `undefined`, `NaN` and `0` are falsy. -/
def jsNumTruthy : JSNum → Bool
  | .undef => false
  | .nan => false
  | .num n => n != 0

/-- The unit table `["Bytes", "KB", "MB", "GB", "TB"]` from the source. -/
def sizes : List String := ["Bytes", "KB", "MB", "GB", "TB"]

/-- JavaScript array indexing `sizes[i]`: an out-of-bounds read yields
`undefined`, which a template literal renders as the text `"undefined"`. -/
def sizesGet (i : Nat) : String := (sizes.get? i).getD "undefined"

/-- The magnitude `i = Math.floor (Math.log bytes / Math.log 1024)` computed by
`formatFileSize`, modelled by its exact value `Nat.log 1024 bytes`; the
equality with the real-number floor expression is proved below. -/
def magnitude (bytes : Nat) : Nat := Nat.log 1024 bytes

/-- Models `(num / den).toFixed 2` for the exact nonnegative rational `num / den`
(`den > 0`): round half away from zero to an integer number of hundredths,
then print with exactly two decimals. -/
def toFixed2Of (num den : Nat) : String :=
  let hundredths := (200 * num + den) / (2 * den)
  let frac := hundredths % 100
  toString (hundredths / 100) ++ "." ++
    (if frac < 10 then "0" ++ toString frac else toString frac)

/-- The function `formatFileSize` from the source:

```js
function formatFileSize(bytes) {
  if (!bytes || isNaN(bytes)) return "Unknown";
  const sizes = ["Bytes", "KB", "MB", "GB", "TB"];
  if (bytes === 0) return "0 Bytes";
  const i = parseInt(Math.floor(Math.log(bytes) / Math.log(1024)), 10);
  return `...`;
}
```

Note that `!bytes` is `true` for `bytes === 0`, so the `"0 Bytes"` branch is
unreachable; the embedding keeps the dead branch to mirror the source. -/
def formatFileSize (bytes : JSNum) : String :=
  if !(jsNumTruthy bytes) || bytes == .nan then "Unknown"
  else
    match bytes with
    | .num b =>
      if b = 0 then "0 Bytes"
      else toFixed2Of b (1024 ^ magnitude b) ++ " " ++ sizesGet (magnitude b)
    | _ => "Unknown"

/-- The value of `asset.fields.title` as the script can see it: absent, a plain
string, or a localized object `{"en-US": ...}` whose `"en-US"` member may be
absent. -/
inductive JSTitle where
  | undef
  | str (s : String)
  | loc (enUS : Option String)
deriving DecidableEq

/-- Models `asset.fields.title?.["en-US"] || asset.fields.title || "Untitled"` with
JavaScript truthiness: an empty string is falsy and falls through; indexing a
plain string with `"en-US"` yields `undefined`; a localized object whose
`"en-US"` member is falsy is itself truthy, so the object is the result. -/
def assetTitleOf : JSTitle → JSTitle
  | .undef => .str "Untitled"
  | .str s => if s = "" then .str "Untitled" else .str s
  | .loc none => .loc none
  | .loc (some s) => if s = "" then .loc (some s) else .str s

/-- The `file.details` object: only its `size` member is read. -/
structure DetailsObj where
  size : JSNum
deriving DecidableEq

/-- The file descriptor object with the three members the script reads. -/
structure FileDetailsObj where
  url : Option String
  contentType : Option String
  details : Option DetailsObj
deriving DecidableEq

/-- The value of `asset.fields.file`: absent, the descriptor object directly, or the
localized object `{"en-US": descriptor}`. -/
inductive JSFile where
  | undef
  | raw (d : FileDetailsObj)
  | loc (d : FileDetailsObj)
deriving DecidableEq

/-- Models `asset.fields.file?.["en-US"] || asset.fields.file`: a localized object
contributes its `"en-US"` descriptor; a plain descriptor has no `"en-US"`
member, and the fallback returns the (truthy) descriptor object itself. -/
def fileDetailsOf : JSFile → Option FileDetailsObj
  | .undef => none
  | .raw d => some d
  | .loc d => some d

/-- JavaScript `x || dflt` for a possibly absent string `x`: absent and empty
strings are falsy. -/
def jsStrOr (x : Option String) (dflt : String) : String :=
  match x with
  | none => dflt
  | some s => if s = "" then dflt else s

/-- An asset as returned by the asset listing: `sys.id`, the two `sys`
timestamps (kept as the strings the repository serves), and the two `fields`
members the script reads. -/
structure Asset where
  id : String
  createdAt : String
  updatedAt : String
  title : JSTitle
  file : JSFile
deriving DecidableEq

/-- One report entry, shaped exactly like the object pushed onto
`unlinkedAssets`. The `title` member keeps the JavaScript value (a string, or
a localized object when the fallback chain ends on one). -/
structure UnlinkedAssetEntry where
  id : String
  title : JSTitle
  url : String
  contentType : String
  fileSize : String
  createdAt : String
  updatedAt : String
  contentfulUrl : String
deriving DecidableEq

/-- The helper `getContentfulWebAppUrl` from the source: the fixed deep-link template with
space id, environment id and asset id substituted. -/
def getContentfulWebAppUrl (spaceId assetId environmentId : String) : String :=
  "https://app.contentful.com/spaces/" ++ spaceId ++ "/environments/" ++
    environmentId ++ "/assets/" ++ assetId

/-- The configured client plus the remote repository it talks to, as one
record: the configuration (`spaceId`, `environmentId`, the locale-dependent
`Date.toLocaleDateString` rendering), the fixed remote state (`assets` in the
requested `sys.createdAt` order, `entriesTotal` giving the total of entries
linking to an asset id), and the error schedule saying which API calls raise
(`fetchFails` per requested skip, `entriesFails` per asset id). -/
structure Client where
  spaceId : String
  environmentId : String
  fmtDate : String → String
  assets : List Asset
  entriesTotal : String → Nat
  entriesFails : String → Bool
  fetchFails : Nat → Bool

/-- The fixed page size: `const limit = 100`. -/
def limit : Nat := 100

/-- Models `client.getAssets({skip, limit, order: "sys.createdAt"})`: the slice
`[skip, skip + limit)` of the ordered asset list, or a raised error. -/
def getAssets (c : Client) (skip : Nat) : Except String (List Asset) :=
  if c.fetchFails skip then .error "fetch failed"
  else .ok ((c.assets.drop skip).take limit)

/-- Models `client.getEntries({links_to_asset: assetId, limit: 1})`, observed through
the only member the script reads: the `total` count of matching entries. -/
def getEntries (c : Client) (assetId : String) : Except String Nat :=
  if c.entriesFails assetId then .error "entries failed"
  else .ok (c.entriesTotal assetId)

/-- The object pushed for an unlinked asset, member for member as in the
source: title fallback chain, `fileDetails?.url || "No URL"`,
`fileDetails?.contentType || "Unknown"`,
`fileSize ? formatFileSize(fileSize) : "Unknown"` with
`fileSize = fileDetails?.details?.size`, locale-formatted dates, and the
deep link built from the configured space and environment. -/
def mkEntry (c : Client) (asset : Asset) : UnlinkedAssetEntry :=
  let fd := fileDetailsOf asset.file
  let fileSizeVal : JSNum :=
    match fd with
    | some d =>
      match d.details with
      | some det => det.size
      | none => .undef
    | none => .undef
  { id := asset.id
    title := assetTitleOf asset.title
    url := jsStrOr (fd.bind (fun d => d.url)) "No URL"
    contentType := jsStrOr (fd.bind (fun d => d.contentType)) "Unknown"
    fileSize := if jsNumTruthy fileSizeVal then formatFileSize fileSizeVal else "Unknown"
    createdAt := c.fmtDate asset.createdAt
    updatedAt := c.fmtDate asset.updatedAt
    contentfulUrl := getContentfulWebAppUrl c.spaceId asset.id c.environmentId }

/-- The test `linkedEntries.total === 0`: the reference-check classifies the asset as
unlinked. -/
def isUnlinked (c : Client) (asset : Asset) : Bool :=
  c.entriesTotal asset.id == 0

/-- The `for (const asset of assets)` body over one fetched page: check each
asset in order and push an entry when the total is zero. Returns the entries
pushed by this page together with `true`, or — when a reference check raises —
the entries pushed before the failing asset together with `false` (they stay
in the accumulator exactly as in the source, where the `catch` keeps
everything already pushed). -/
def processAssets (c : Client) : List Asset → List UnlinkedAssetEntry × Bool
  | [] => ([], true)
  | asset :: rest =>
    match getEntries c asset.id with
    | .error _ => ([], false)
    | .ok total =>
      let found := if total == 0 then [mkEntry c asset] else []
      let result := processAssets c rest
      (found ++ result.1, result.2)

/-- The `while (hasMoreAssets)` loop, fuel-indexed. Each iteration fetches the
page at `skip`; a raised fetch, an empty page, a raised reference check, or a
page shorter than `limit` ends the loop, and a full page continues at
`skip + limit`. The result pairs the list of skip offsets passed to
`getAssets` (the request trace) with the accumulated entries. -/
def scanLoop (c : Client) : Nat → Nat → List Nat × List UnlinkedAssetEntry
  | 0, _ => ([], [])
  | fuel + 1, skip =>
    match getAssets c skip with
    | .error _ => ([skip], [])
    | .ok page =>
      if page.isEmpty then ([skip], [])
      else
        let processed := processAssets c page
        if !processed.2 then ([skip], processed.1)
        else if page.length < limit then ([skip], processed.1)
        else
          let rest := scanLoop c fuel (skip + limit)
          (skip :: rest.1, processed.1 ++ rest.2)

/-- The entry point `findUnlinkedAssets()`: run the loop from `skip = 0`. The fuel
`c.assets.length + 1` is sufficient because every continuing iteration
consumes a full page of `limit = 100` assets. -/
def findUnlinkedAssets (c : Client) : List Nat × List UnlinkedAssetEntry :=
  scanLoop c (c.assets.length + 1) 0

/-- The three environment variables read at startup. -/
structure Env where
  SPACE_ID : Option String
  ENVIRONMENT : Option String
  ACCESS_TOKEN : Option String

/-- JavaScript falsiness of a possibly absent environment string: absent or
empty. -/
def jsStrFalsy : Option String → Bool
  | none => true
  | some s => s == ""

/-- `ENVIRONMENT || "master"`: the environment id used for the client and the
deep links. -/
def effectiveEnvironment (e : Env) : String := jsStrOr e.ENVIRONMENT "master"

/-- The whole run, observed through (exit code, skip offsets requested from
the network, report written as a file — `none` when the process exits before
writing one). Startup validation `if (!SPACE_ID || !ACCESS_TOKEN)` exits with
code 1 before the client is created; otherwise the scan runs against the
client `c` built from the validated configuration, the report is written and
the process exits 0. -/
def runProgram (e : Env) (c : Client) :
    Nat × List Nat × Option (List UnlinkedAssetEntry) :=
  if jsStrFalsy e.SPACE_ID || jsStrFalsy e.ACCESS_TOKEN then (1, [], none)
  else
    let result := findUnlinkedAssets c
    (0, result.1, some result.2)

def sampleAsset (i : String) : Asset :=
  { id := i, createdAt := "2024-01-01T00:00:00Z", updatedAt := "2024-01-02T00:00:00Z",
    title := .str "Photo", file := .undef }

def sampleClient : Client :=
  { spaceId := "space1", environmentId := "master", fmtDate := fun s => s,
    assets := [sampleAsset "a1", sampleAsset "a2", sampleAsset "a3"],
    entriesTotal := fun i => if i == "a2" then 0 else 1,
    entriesFails := fun _ => false,
    fetchFails := fun _ => false }

def errClient : Client :=
  { spaceId := "space1", environmentId := "master", fmtDate := fun s => s,
    assets := [sampleAsset "a1", sampleAsset "a2"],
    entriesTotal := fun _ => 0,
    entriesFails := fun i => i == "a2",
    fetchFails := fun _ => false }

def titleCexAsset : Asset :=
  { id := "t1", createdAt := "2024-01-01", updatedAt := "2024-01-02",
    title := .str "", file := .undef }

def locTitleAsset : Asset :=
  { id := "t2", createdAt := "2024-01-01", updatedAt := "2024-01-02",
    title := .loc (some "Hero"), file := .undef }

def envMissing : Env :=
  { SPACE_ID := none, ENVIRONMENT := none, ACCESS_TOKEN := some "token" }

lemma magnitude_1023 : magnitude 1023 = 0 := Nat.log_of_lt (by norm_num)

lemma magnitude_1024 : magnitude 1024 = 1 :=
  Nat.log_eq_of_pow_le_of_lt_pow (by norm_num) (by norm_num)

lemma magnitude_1536 : magnitude 1536 = 1 :=
  Nat.log_eq_of_pow_le_of_lt_pow (by norm_num) (by norm_num)

lemma magnitude_pow5 : magnitude (1024 ^ 5) = 5 := Nat.log_pow (by norm_num) 5

lemma sizesGet_mem_of_le {i : Nat} (h : i ≤ 4) : sizesGet i ∈ sizes := by
  revert i
  decide

lemma sizesGet_of_ge {i : Nat} (h : 5 ≤ i) : sizesGet i = "undefined" := by
  unfold sizesGet
  rw [List.get?_eq_none.mpr (by simpa [sizes] using h)]
  rfl

lemma processAssets_clean (c : Client) :
    ∀ (as : List Asset), (∀ a ∈ as, c.entriesFails a.id = false) →
      processAssets c as = ((as.filter (isUnlinked c)).map (mkEntry c), true) := by
  intro as
  induction as with
  | nil => intro _; rfl
  | cons a rest ih =>
    intro he
    have ha : c.entriesFails a.id = false := he a (List.mem_cons_self a rest)
    have hrest := ih (fun x hx => he x (List.mem_cons_of_mem a hx))
    simp only [processAssets, getEntries, ha, if_false, hrest, List.filter_cons]
    by_cases hp : isUnlinked c a
    · simp [isUnlinked] at hp
      simp [hp, isUnlinked]
    · simp [isUnlinked] at hp
      simp [hp, isUnlinked]

lemma range_one_eq : List.range 1 = [0] := rfl

lemma range_map_shift (s m : Nat) :
    (List.range (m + 1)).map (fun k => s + limit * k) =
      s :: (List.range m).map (fun k => (s + limit) + limit * k) := by
  rw [List.range_succ_eq_map]
  simp only [List.map_cons, Nat.mul_zero, Nat.add_zero, List.map_map]
  refine congrArg _ ?_
  apply List.map_congr_left
  intro k _
  simp only [Function.comp_apply, Nat.succ_eq_add_one]
  ring

lemma isEmpty_false_of_length_ne {α : Type} {l : List α} (h : l.length ≠ 0) :
    l.isEmpty = false := by
  cases hE : l.isEmpty
  · rfl
  · exact absurd (List.isEmpty_iff_length_eq_zero.mp hE) h

lemma scanLoop_fetch_error (c : Client) (fuel skip : Nat) (msg : String)
    (h0 : getAssets c skip = .error msg) :
    scanLoop c (fuel + 1) skip = ([skip], []) := by
  simp only [scanLoop, h0]

lemma scanLoop_empty_page (c : Client) (fuel skip : Nat)
    (h0 : getAssets c skip = .ok []) :
    scanLoop c (fuel + 1) skip = ([skip], []) := by
  simp only [scanLoop, h0, List.isEmpty_nil, if_true]

lemma scanLoop_proc_error (c : Client) (fuel skip : Nat) (page : List Asset)
    (h0 : getAssets c skip = .ok page)
    (hne : page.isEmpty = false)
    (hpf : (processAssets c page).2 = false) :
    scanLoop c (fuel + 1) skip = ([skip], (processAssets c page).1) := by
  simp only [scanLoop, h0, hne, Bool.false_eq_true, if_false, hpf, Bool.not_false, if_true]

lemma scanLoop_short_page (c : Client) (fuel skip : Nat) (page : List Asset)
    (h0 : getAssets c skip = .ok page)
    (hne : page.isEmpty = false)
    (hok : (processAssets c page).2 = true)
    (hshort : page.length < limit) :
    scanLoop c (fuel + 1) skip = ([skip], (processAssets c page).1) := by
  simp only [scanLoop, h0, hne, Bool.false_eq_true, if_false, hok, Bool.not_true, hshort, if_true]

lemma scanLoop_full_page (c : Client) (fuel skip : Nat) (page : List Asset)
    (h0 : getAssets c skip = .ok page)
    (hne : page.isEmpty = false)
    (hok : (processAssets c page).2 = true)
    (hfull : ¬ page.length < limit) :
    scanLoop c (fuel + 1) skip =
      (skip :: (scanLoop c fuel (skip + limit)).1,
       (processAssets c page).1 ++ (scanLoop c fuel (skip + limit)).2) := by
  simp only [scanLoop, h0, hne, Bool.false_eq_true, if_false, hok, Bool.not_true, hfull]

lemma scanLoop_clean (c : Client)
    (hf : ∀ s, c.fetchFails s = false)
    (he : ∀ a ∈ c.assets, c.entriesFails a.id = false) :
    ∀ (fuel skip : Nat), c.assets.length ≤ skip + limit * fuel →
      (scanLoop c (fuel + 1) skip).1 =
        (List.range ((c.assets.length - skip) / limit + 1)).map (fun k => skip + limit * k) ∧
      (scanLoop c (fuel + 1) skip).2 =
        ((c.assets.drop skip).filter (isUnlinked c)).map (mkEntry c) := by
  intro fuel
  induction fuel with
  | zero =>
    intro skip hle
    simp only [limit, Nat.mul_zero, Nat.add_zero] at hle
    have hdrop : c.assets.drop skip = [] := List.drop_eq_nil_of_le hle
    have h0 : getAssets c skip = .ok [] := by
      simp [getAssets, hf, hdrop]
    have hsub : c.assets.length - skip = 0 := by omega
    rw [scanLoop_empty_page c 0 skip h0, hsub, hdrop]
    constructor
    · simp [range_one_eq]
    · simp
  | succ fuel ih =>
    intro skip hle
    by_cases hcase : c.assets.length ≤ skip
    · have hdrop : c.assets.drop skip = [] := List.drop_eq_nil_of_le hcase
      have h0 : getAssets c skip = .ok [] := by
        simp [getAssets, hf, hdrop]
      have hsub : c.assets.length - skip = 0 := by omega
      rw [scanLoop_empty_page c (fuel + 1) skip h0, hsub, hdrop]
      constructor
      · simp [range_one_eq]
      · simp
    · push_neg at hcase
      have hdlen : (c.assets.drop skip).length = c.assets.length - skip :=
        List.length_drop skip c.assets
      have hplen : ((c.assets.drop skip).take limit).length =
          min limit (c.assets.length - skip) := by
        rw [List.length_take, hdlen]
      have h0 : getAssets c skip = .ok ((c.assets.drop skip).take limit) := by
        simp [getAssets, hf]
      have hpage_sub : ∀ a ∈ (c.assets.drop skip).take limit, a ∈ c.assets :=
        fun a hx => List.drop_subset skip c.assets (List.take_subset _ _ hx)
      have hproc := processAssets_clean c ((c.assets.drop skip).take limit)
        (fun a hx => he a (hpage_sub a hx))
      have hne : ((c.assets.drop skip).take limit).isEmpty = false :=
        isEmpty_false_of_length_ne (by
          rw [hplen]
          simp only [limit]
          omega)
      have hok : (processAssets c ((c.assets.drop skip).take limit)).2 = true := by
        rw [hproc]
      by_cases hshort : c.assets.length - skip < limit
      · have htake : (c.assets.drop skip).take limit = c.assets.drop skip :=
          List.take_of_length_le (by omega)
        have hsub : (c.assets.length - skip) / limit = 0 := by
          simp only [limit] at hshort ⊢
          omega
        have hlt : ((c.assets.drop skip).take limit).length < limit := by
          rw [hplen]
          omega
        rw [scanLoop_short_page c (fuel + 1) skip _ h0 hne hok hlt, hproc, htake, hsub]
        constructor
        · simp [range_one_eq]
        · simp
      · push_neg at hshort
        have hplen100 : ((c.assets.drop skip).take limit).length = limit := by
          rw [hplen]
          omega
        have hnotlt : ¬ ((c.assets.drop skip).take limit).length < limit := by
          rw [hplen100]
          exact lt_irrefl _
        have hrec := ih (skip + limit) (by simp only [limit] at hle ⊢; omega)
        have harith : (c.assets.length - skip) / limit =
            (c.assets.length - (skip + limit)) / limit + 1 := by
          simp only [limit] at hshort ⊢
          omega
        have hsplit : (c.assets.drop skip).take limit ++ c.assets.drop (skip + limit) =
            c.assets.drop skip := by
          rw [← List.drop_drop]
          exact List.take_append_drop limit (c.assets.drop skip)
        rw [scanLoop_full_page c (fuel + 1) skip _ h0 hne hok hnotlt]
        constructor
        · show skip :: (scanLoop c (fuel + 1) (skip + limit)).1 = _
          rw [harith, range_map_shift, hrec.1]
        · have hgoal : ((c.assets.drop skip).filter (isUnlinked c)).map (mkEntry c) =
              (((c.assets.drop skip).take limit).filter (isUnlinked c)).map (mkEntry c) ++
                ((c.assets.drop (skip + limit)).filter (isUnlinked c)).map (mkEntry c) := by
            rw [← List.map_append, ← List.filter_append, hsplit]
          show (processAssets c _).1 ++ (scanLoop c (fuel + 1) (skip + limit)).2 = _
          rw [hrec.2, hgoal]
          simp only [hproc]

lemma findUnlinkedAssets_clean (c : Client)
    (hf : ∀ s, c.fetchFails s = false)
    (he : ∀ a ∈ c.assets, c.entriesFails a.id = false) :
    (findUnlinkedAssets c).1 =
      (List.range (c.assets.length / limit + 1)).map (fun k => limit * k) ∧
    (findUnlinkedAssets c).2 = (c.assets.filter (isUnlinked c)).map (mkEntry c) := by
  have h := scanLoop_clean c hf he c.assets.length 0 (by simp only [limit]; omega)
  unfold findUnlinkedAssets
  constructor
  · rw [h.1]
    simp only [Nat.sub_zero]
    apply List.map_congr_left
    intro k _
    omega
  · rw [h.2, List.drop_zero]

lemma flatten_slices (c : Client) :
    ∀ (n skip : Nat), (c.assets.length - skip) / limit = n →
      (((List.range (n + 1)).map (fun k => skip + limit * k)).map
        (fun s => (c.assets.drop s).take limit)).flatten = c.assets.drop skip := by
  intro n
  induction n with
  | zero =>
    intro skip h
    simp only [List.range_succ_eq_map, List.range_zero, List.map_cons, List.map_nil,
      List.flatten_cons, List.flatten_nil, List.append_nil, Nat.mul_zero, Nat.add_zero]
    apply List.take_of_length_le
    rw [List.length_drop]
    simp only [limit] at h ⊢
    omega
  | succ n ih =>
    intro skip h
    have h2 : (c.assets.length - (skip + limit)) / limit = n := by
      simp only [limit] at h ⊢
      omega
    rw [range_map_shift]
    simp only [List.map_cons, List.flatten_cons]
    rw [ih (skip + limit) h2, ← List.drop_drop, List.take_append_drop]

lemma getElem_idx_eq {α : Type} (l : List α) (i j : Nat) (hi : i < l.length)
    (hij : i = j) (hj : j < l.length) : l[i] = l[j] := by
  subst hij
  rfl

lemma processAssets_err (c : Client) :
    ∀ (page : List Asset) (r : Nat) (hr : r < page.length),
      c.entriesFails page[r].id = true →
      (∀ a ∈ page.take r, c.entriesFails a.id = false) →
      processAssets c page =
        (((page.take r).filter (isUnlinked c)).map (mkEntry c), false) := by
  intro page
  induction page with
  | nil =>
    intro r hr
    exact absurd hr (by simp)
  | cons a rest ih =>
    intro r hr hfail hok
    cases r with
    | zero =>
      simp only [List.getElem_cons_zero] at hfail
      simp only [processAssets, getEntries, hfail, if_true, List.take_zero,
        List.filter_nil, List.map_nil]
    | succ r =>
      have ha : c.entriesFails a.id = false :=
        hok a (by rw [List.take_succ_cons]; exact List.mem_cons_self a _)
      have hr2 : r < rest.length := by simpa using hr
      have hfail2 : c.entriesFails rest[r].id = true := by
        simpa only [List.getElem_cons_succ] using hfail
      have hok2 : ∀ x ∈ rest.take r, c.entriesFails x.id = false := fun x hx =>
        hok x (by rw [List.take_succ_cons]; exact List.mem_cons_of_mem a hx)
      have hrest := ih r hr2 hfail2 hok2
      simp only [processAssets, getEntries, ha, if_false, hrest, List.take_succ_cons,
        List.filter_cons]
      by_cases hp : isUnlinked c a
      · simp [isUnlinked] at hp
        simp [hp, isUnlinked]
      · simp [isUnlinked] at hp
        simp [hp, isUnlinked]

lemma scanLoop_err_stop (c : Client) (k : Nat)
    (hf : ∀ s, c.fetchFails s = false)
    (hk : k < c.assets.length)
    (hfail : c.entriesFails c.assets[k].id = true)
    (hok : ∀ a ∈ c.assets.take k, c.entriesFails a.id = false)
    (fuel skip : Nat) (hsk : skip ≤ k) (hlt : k - skip < limit) :
    scanLoop c (fuel + 1) skip =
      ([skip], (((c.assets.drop skip).take (k - skip)).filter (isUnlinked c)).map (mkEntry c)) := by
  have hdlen : (c.assets.drop skip).length = c.assets.length - skip :=
    List.length_drop skip c.assets
  have hplen : ((c.assets.drop skip).take limit).length =
      min limit (c.assets.length - skip) := by
    rw [List.length_take, hdlen]
  have h0 : getAssets c skip = .ok ((c.assets.drop skip).take limit) := by
    simp [getAssets, hf]
  have hne : ((c.assets.drop skip).take limit).isEmpty = false :=
    isEmpty_false_of_length_ne (by
      rw [hplen]
      simp only [limit] at hlt ⊢
      omega)
  have hr_page : k - skip < ((c.assets.drop skip).take limit).length := by
    rw [hplen]
    simp only [limit] at hlt ⊢
    omega
  have hpr : ((c.assets.drop skip).take limit)[k - skip] = c.assets[k] := by
    rw [List.getElem_take, List.getElem_drop]
    exact getElem_idx_eq c.assets _ _ (by omega) (by omega) hk
  have hfail_page : c.entriesFails ((c.assets.drop skip).take limit)[k - skip].id = true := by
    rw [hpr]
    exact hfail
  have hpt : ((c.assets.drop skip).take limit).take (k - skip) =
      (c.assets.drop skip).take (k - skip) := by
    rw [List.take_take, show min (k - skip) limit = k - skip from by omega]
  have hdt : (c.assets.drop skip).take (k - skip) = (c.assets.take k).drop skip := by
    rw [List.drop_take]
  have hok_page : ∀ a ∈ ((c.assets.drop skip).take limit).take (k - skip),
      c.entriesFails a.id = false := by
    intro a hx
    rw [hpt, hdt] at hx
    exact hok a (List.mem_of_mem_drop hx)
  have hperr := processAssets_err c ((c.assets.drop skip).take limit) (k - skip)
    hr_page hfail_page hok_page
  have hpf : (processAssets c ((c.assets.drop skip).take limit)).2 = false := by
    rw [hperr]
  rw [scanLoop_proc_error c fuel skip _ h0 hne hpf, hperr, hpt]

lemma scanLoop_err (c : Client) (k : Nat)
    (hf : ∀ s, c.fetchFails s = false)
    (hk : k < c.assets.length)
    (hfail : c.entriesFails c.assets[k].id = true)
    (hok : ∀ a ∈ c.assets.take k, c.entriesFails a.id = false) :
    ∀ (fuel skip : Nat), skip ≤ k → k ≤ skip + limit * fuel →
      (scanLoop c (fuel + 1) skip).1 =
        (List.range ((k - skip) / limit + 1)).map (fun i => skip + limit * i) ∧
      (scanLoop c (fuel + 1) skip).2 =
        (((c.assets.drop skip).take (k - skip)).filter (isUnlinked c)).map (mkEntry c) := by
  intro fuel
  induction fuel with
  | zero =>
    intro skip hsk hle
    have hlt : k - skip < limit := by
      simp only [limit] at hle ⊢
      omega
    have hsub : (k - skip) / limit = 0 := by
      simp only [limit] at hlt ⊢
      omega
    rw [scanLoop_err_stop c k hf hk hfail hok 0 skip hsk hlt, hsub]
    constructor
    · simp [range_one_eq]
    · simp
  | succ fuel ih =>
    intro skip hsk hle
    by_cases hshort : k - skip < limit
    · have hsub : (k - skip) / limit = 0 := by
        simp only [limit] at hshort ⊢
        omega
      rw [scanLoop_err_stop c k hf hk hfail hok (fuel + 1) skip hsk hshort, hsub]
      constructor
      · simp [range_one_eq]
      · simp
    · push_neg at hshort
      have hdlen : (c.assets.drop skip).length = c.assets.length - skip :=
        List.length_drop skip c.assets
      have hplen : ((c.assets.drop skip).take limit).length =
          min limit (c.assets.length - skip) := by
        rw [List.length_take, hdlen]
      have h0 : getAssets c skip = .ok ((c.assets.drop skip).take limit) := by
        simp [getAssets, hf]
      have hne : ((c.assets.drop skip).take limit).isEmpty = false :=
        isEmpty_false_of_length_ne (by
          rw [hplen]
          simp only [limit] at hshort ⊢
          omega)
      have hpage_clean : ∀ a ∈ (c.assets.drop skip).take limit,
          c.entriesFails a.id = false := by
        intro a hx
        have h1 : (c.assets.drop skip).take limit =
            (c.assets.take (skip + limit)).drop skip := by
          rw [List.drop_take, show skip + limit - skip = limit from by omega]
        have h2 : c.assets.take (skip + limit) = (c.assets.take k).take (skip + limit) := by
          rw [List.take_take, show min (skip + limit) k = skip + limit from by omega]
        rw [h1, h2] at hx
        exact hok a (List.take_subset _ _ (List.mem_of_mem_drop hx))
      have hproc := processAssets_clean c ((c.assets.drop skip).take limit) hpage_clean
      have hokb : (processAssets c ((c.assets.drop skip).take limit)).2 = true := by
        rw [hproc]
      have hplen100 : ((c.assets.drop skip).take limit).length = limit := by
        rw [hplen]
        simp only [limit] at hshort ⊢
        omega
      have hnotlt : ¬ ((c.assets.drop skip).take limit).length < limit := by
        rw [hplen100]
        exact lt_irrefl _
      have hrec := ih (skip + limit) (by simp only [limit] at hshort ⊢; omega)
        (by simp only [limit] at hle ⊢; omega)
      have harith : (k - skip) / limit = (k - (skip + limit)) / limit + 1 := by
        simp only [limit] at hshort ⊢
        omega
      have hsplit2 : (c.assets.drop skip).take (k - skip) =
          (c.assets.drop skip).take limit ++
            (c.assets.drop (skip + limit)).take (k - (skip + limit)) := by
        rw [show k - skip = limit + (k - (skip + limit)) from by
            simp only [limit] at hshort ⊢
            omega,
          List.take_add, List.drop_drop]
      rw [scanLoop_full_page c (fuel + 1) skip _ h0 hne hokb hnotlt]
      constructor
      · show skip :: (scanLoop c (fuel + 1) (skip + limit)).1 = _
        rw [harith, range_map_shift, hrec.1]
      · show (processAssets c _).1 ++ (scanLoop c (fuel + 1) (skip + limit)).2 = _
        rw [hrec.2, hsplit2, List.filter_append, List.map_append]
        simp only [hproc]

lemma range_map_mul_shift (j m : Nat) (h : j < m) :
    (List.range (m - j + 1)).map (fun i => limit * (j + i)) =
      limit * j :: (List.range (m - (j + 1) + 1)).map (fun i => limit * ((j + 1) + i)) := by
  rw [show m - j + 1 = (m - (j + 1) + 1) + 1 from by omega, List.range_succ_eq_map]
  simp only [List.map_cons, Nat.add_zero, List.map_map]
  refine congrArg _ ?_
  apply List.map_congr_left
  intro i _
  simp only [Function.comp_apply, Nat.succ_eq_add_one]
  ring

lemma scanLoop_fetch_err (c : Client) (m : Nat)
    (hb : limit * m ≤ c.assets.length)
    (hff : c.fetchFails (limit * m) = true)
    (hprev : ∀ j, j < m → c.fetchFails (limit * j) = false)
    (hclean : ∀ a ∈ c.assets.take (limit * m), c.entriesFails a.id = false) :
    ∀ (fuel j : Nat), j ≤ m → m ≤ j + fuel →
      (scanLoop c (fuel + 1) (limit * j)).1 =
        (List.range (m - j + 1)).map (fun i => limit * (j + i)) ∧
      (scanLoop c (fuel + 1) (limit * j)).2 =
        (((c.assets.drop (limit * j)).take (limit * m - limit * j)).filter
          (isUnlinked c)).map (mkEntry c) := by
  intro fuel
  induction fuel with
  | zero =>
    intro j hj hle
    have hjm : j = m := by omega
    subst hjm
    have h0 : getAssets c (limit * j) = .error "fetch failed" := by
      simp [getAssets, hff]
    rw [scanLoop_fetch_error c 0 (limit * j) _ h0]
    constructor
    · simp [range_one_eq]
    · simp
  | succ fuel ih =>
    intro j hj hle
    by_cases hjm : j = m
    · subst hjm
      have h0 : getAssets c (limit * j) = .error "fetch failed" := by
        simp [getAssets, hff]
      rw [scanLoop_fetch_error c (fuel + 1) (limit * j) _ h0]
      constructor
      · simp [range_one_eq]
      · simp
    · have hjlt : j < m := by omega
      have h0 : getAssets c (limit * j) = .ok ((c.assets.drop (limit * j)).take limit) := by
        simp [getAssets, hprev j hjlt]
      have hdlen : (c.assets.drop (limit * j)).length = c.assets.length - limit * j :=
        List.length_drop _ c.assets
      have hplen : ((c.assets.drop (limit * j)).take limit).length =
          min limit (c.assets.length - limit * j) := by
        rw [List.length_take, hdlen]
      have hplen100 : ((c.assets.drop (limit * j)).take limit).length = limit := by
        rw [hplen]
        simp only [limit] at hb ⊢
        omega
      have hne : ((c.assets.drop (limit * j)).take limit).isEmpty = false :=
        isEmpty_false_of_length_ne (by
          rw [hplen100]
          simp only [limit]
          omega)
      have hpage_clean : ∀ a ∈ (c.assets.drop (limit * j)).take limit,
          c.entriesFails a.id = false := by
        intro a hx
        have h1 : (c.assets.drop (limit * j)).take limit =
            (c.assets.take (limit * j + limit)).drop (limit * j) := by
          rw [List.drop_take, show limit * j + limit - limit * j = limit from by omega]
        have h2 : c.assets.take (limit * j + limit) =
            (c.assets.take (limit * m)).take (limit * j + limit) := by
          rw [List.take_take, show min (limit * j + limit) (limit * m) = limit * j + limit from by
            simp only [limit] at hjlt ⊢
            omega]
        rw [h1, h2] at hx
        exact hclean a (List.take_subset _ _ (List.mem_of_mem_drop hx))
      have hproc := processAssets_clean c ((c.assets.drop (limit * j)).take limit) hpage_clean
      have hokb : (processAssets c ((c.assets.drop (limit * j)).take limit)).2 = true := by
        rw [hproc]
      have hnotlt : ¬ ((c.assets.drop (limit * j)).take limit).length < limit := by
        rw [hplen100]
        exact lt_irrefl _
      have hrec := ih (j + 1) (by omega) (by omega)
      have hstep : limit * j + limit = limit * (j + 1) := by ring
      rw [scanLoop_full_page c (fuel + 1) (limit * j) _ h0 hne hokb hnotlt, hstep]
      constructor
      · show limit * j :: (scanLoop c (fuel + 1) (limit * (j + 1))).1 = _
        rw [range_map_mul_shift j m hjlt, hrec.1]
      · show (processAssets c _).1 ++ (scanLoop c (fuel + 1) (limit * (j + 1))).2 = _
        have hsplit3 : (c.assets.drop (limit * j)).take (limit * m - limit * j) =
            (c.assets.drop (limit * j)).take limit ++
              (c.assets.drop (limit * (j + 1))).take (limit * m - limit * (j + 1)) := by
          rw [show limit * m - limit * j = limit + (limit * m - limit * (j + 1)) from by
              simp only [limit] at hjlt ⊢
              omega,
            List.take_add, List.drop_drop, hstep]
        rw [hrec.2, hsplit3, List.filter_append, List.map_append]
        simp only [hproc]

/-- Claim C4 (checked against the code): the formatter maps an absent
(`undefined`) byte count and a `NaN` byte count to `"Unknown"`, and — contrary
to the claim and to the source's own unreachable `bytes === 0` branch — it
also maps the literal zero byte count to `"Unknown"`, because the JavaScript
guard `!bytes` is true for `0` and returns early. -/
theorem formatFileSize_zero_and_nonnumeric :
    formatFileSize (JSNum.num 0) = "Unknown" ∧
    formatFileSize JSNum.undef = "Unknown" ∧
    formatFileSize JSNum.nan = "Unknown" :=
  ⟨rfl, rfl, rfl⟩

/-- Claim C5: for every positive byte count `b` the formatter returns
`(b / 1024 ^ i).toFixed 2` followed by a space and the unit at index
`i = Math.floor (Math.log b / Math.log 1024)` — modelled exactly: the real
floor expression equals `magnitude b = Nat.log 1024 b` — and in particular
`format 1023 = "1023.00 Bytes"`, `format 1024 = "1.00 KB"`,
`format 1536 = "1.50 KB"`. -/
theorem formatFileSize_positive_formula :
    (∀ b : Nat, 0 < b →
      formatFileSize (JSNum.num b) =
        toFixed2Of b (1024 ^ magnitude b) ++ " " ++ sizesGet (magnitude b)) ∧
    (∀ b : Nat, (⌊Real.log b / Real.log 1024⌋ : ℤ) = (magnitude b : ℤ)) ∧
    formatFileSize (JSNum.num 1023) = "1023.00 Bytes" ∧
    formatFileSize (JSNum.num 1024) = "1.00 KB" ∧
    formatFileSize (JSNum.num 1536) = "1.50 KB" := by
  refine ⟨?_, ?_, ?_, ?_, ?_⟩
  · intro b hb
    have h : b ≠ 0 := hb.ne'
    simp [formatFileSize, jsNumTruthy, h]
  · intro b
    have h1024 : ((1024 : ℕ) : ℝ) = (1024 : ℝ) := by norm_num
    rw [Real.log_div_log, ← h1024, Real.floor_logb_natCast (Nat.cast_nonneg b),
      Int.log_natCast, magnitude]
  · simp only [formatFileSize, magnitude_1023]
    decide
  · simp only [formatFileSize, magnitude_1024]
    decide
  · simp only [formatFileSize, magnitude_1536]
    decide

/-- Claim C5 witness: the general formula instantiated at `b = 1536`. -/
theorem formatFileSize_positive_formula_witness :
    0 < 1536 ∧
    formatFileSize (JSNum.num 1536) =
      toFixed2Of 1536 (1024 ^ magnitude 1536) ++ " " ++ sizesGet (magnitude 1536) :=
  ⟨by decide, formatFileSize_positive_formula.1 1536 (by decide)⟩

/-- Claim C6 counterexample: at the byte count `1024 ^ 5` the unit index is `5`,
beyond the table's last index `4`, and the out-of-bounds lookup makes the
formatter render the unit as the text `"undefined"`, which is not one of
`Bytes/KB/MB/GB/TB` — the code performs no clamp. -/
theorem formatFileSize_unit_overflow :
    magnitude (1024 ^ 5) = 5 ∧
    formatFileSize (JSNum.num (1024 ^ 5)) = "1.00 undefined" ∧
    "1.00 undefined" ≠ toFixed2Of (1024 ^ 5) (1024 ^ 5) ++ " " ++ "Bytes" ∧
    "1.00 undefined" ≠ toFixed2Of (1024 ^ 5) (1024 ^ 5) ++ " " ++ "KB" ∧
    "1.00 undefined" ≠ toFixed2Of (1024 ^ 5) (1024 ^ 5) ++ " " ++ "MB" ∧
    "1.00 undefined" ≠ toFixed2Of (1024 ^ 5) (1024 ^ 5) ++ " " ++ "GB" ∧
    "1.00 undefined" ≠ toFixed2Of (1024 ^ 5) (1024 ^ 5) ++ " " ++ "TB" := by
  refine ⟨magnitude_pow5, ?_, by decide, by decide, by decide, by decide, by decide⟩
  simp only [formatFileSize, magnitude_pow5]
  decide

/-- Claim C6 (amended): for positive byte counts below `1024 ^ 5` the unit
index stays in `0..4` and the rendered unit is one of
`Bytes/KB/MB/GB/TB`; for byte counts of `1024 ^ 5` and above the index is at
least `5` and the out-of-bounds table lookup renders the unit as
`"undefined"`. -/
theorem formatFileSize_unit_index_range :
    (∀ b : Nat, 0 < b → b < 1024 ^ 5 →
      magnitude b ≤ 4 ∧ sizesGet (magnitude b) ∈ sizes) ∧
    (∀ b : Nat, 1024 ^ 5 ≤ b →
      5 ≤ magnitude b ∧ sizesGet (magnitude b) = "undefined") := by
  constructor
  · intro b hb hlt
    have h5 : magnitude b < 5 :=
      (Nat.lt_pow_iff_log_lt (by norm_num) hb.ne').mp hlt
    exact ⟨by omega, sizesGet_mem_of_le (by omega)⟩
  · intro b hge
    have hb : b ≠ 0 := by positivity
    have h5 : 5 ≤ magnitude b :=
      (Nat.pow_le_iff_le_log (by norm_num) hb).mp hge
    exact ⟨h5, sizesGet_of_ge h5⟩

/-- Claim C6 (amended) witness: both halves instantiated, at `b = 2048` and at
`b = 1024 ^ 5`. -/
theorem formatFileSize_unit_index_range_witness :
    (0 < 2048 ∧ 2048 < 1024 ^ 5 ∧
      (magnitude 2048 ≤ 4 ∧ sizesGet (magnitude 2048) ∈ sizes)) ∧
    (1024 ^ 5 ≤ 1024 ^ 5 ∧
      (5 ≤ magnitude (1024 ^ 5) ∧ sizesGet (magnitude (1024 ^ 5)) = "undefined")) :=
  ⟨⟨by decide, by decide,
      formatFileSize_unit_index_range.1 2048 (by decide) (by decide)⟩,
    ⟨le_refl _, formatFileSize_unit_index_range.2 (1024 ^ 5) (le_refl _)⟩⟩

/-- Claim C1: over a fixed remote repository with per-asset-unique identifiers
and a failure-free run, an asset's identifier appears in the output list if and
only if the reference-check query for that asset reported a total of zero
matching entries, and the list of output identifiers has no duplicates — so
each such identifier appears exactly once, with no omissions. -/
theorem report_iff_zero_refs (c : Client)
    (hf : ∀ s, c.fetchFails s = false)
    (he : ∀ a ∈ c.assets, c.entriesFails a.id = false)
    (hnd : (c.assets.map (fun a => a.id)).Nodup) :
    (∀ i : String,
      i ∈ (findUnlinkedAssets c).2.map (fun e => e.id) ↔
        ∃ a ∈ c.assets, a.id = i ∧ c.entriesTotal a.id = 0) ∧
    ((findUnlinkedAssets c).2.map (fun e => e.id)).Nodup := by
  have h := (findUnlinkedAssets_clean c hf he).2
  have hids : (findUnlinkedAssets c).2.map (fun e => e.id) =
      (c.assets.filter (isUnlinked c)).map (fun a => a.id) := by
    rw [h, List.map_map]
    rfl
  constructor
  · intro i
    rw [hids]
    simp only [List.mem_map, List.mem_filter, isUnlinked, beq_iff_eq]
    constructor
    · rintro ⟨a, ⟨ha, hz⟩, rfl⟩
      exact ⟨a, ha, rfl, hz⟩
    · rintro ⟨a, ha, rfl, hz⟩
      exact ⟨a, ⟨ha, hz⟩, rfl⟩
  · rw [hids]
    exact List.Nodup.sublist (List.Sublist.map _ (List.filter_sublist _)) hnd

/-- Claim C1 witness: the theorem applied to the concrete three-asset client
in which only asset `a2` has zero referencing entries; the output id list
evaluates to exactly `["a2"]`. -/
theorem report_iff_zero_refs_witness :
    ((∀ i : String,
      i ∈ (findUnlinkedAssets sampleClient).2.map (fun e => e.id) ↔
        ∃ a ∈ sampleClient.assets, a.id = i ∧ sampleClient.entriesTotal a.id = 0) ∧
    ((findUnlinkedAssets sampleClient).2.map (fun e => e.id)).Nodup) ∧
    (findUnlinkedAssets sampleClient).2.map (fun e => e.id) = ["a2"] :=
  ⟨report_iff_zero_refs sampleClient (fun _ => rfl) (fun _ _ => rfl) (by decide),
   by decide⟩

/-- Claim C2: on a failure-free run over `N` assets the loop requests exactly
the offsets `0, 100, ..., 100 * (N / 100)` — it starts at `0`, advances by the
page size `100` after each non-empty page, and stops after an empty or short
page — and the pages fetched at those offsets, concatenated in order, are
exactly the asset list: every asset is covered exactly once (this holds for
every `N`, in particular `N = 0`, `N < 100`, `N = 100`, `N = 101`,
`N = 200`). -/
theorem pagination_requests_cover (c : Client)
    (hf : ∀ s, c.fetchFails s = false)
    (he : ∀ a ∈ c.assets, c.entriesFails a.id = false) :
    (findUnlinkedAssets c).1 =
      (List.range (c.assets.length / limit + 1)).map (fun k => limit * k) ∧
    ((findUnlinkedAssets c).1.map (fun s => (c.assets.drop s).take limit)).flatten =
      c.assets := by
  have h := findUnlinkedAssets_clean c hf he
  refine ⟨h.1, ?_⟩
  rw [h.1]
  have hcov := flatten_slices c (c.assets.length / limit) 0 (by rw [Nat.sub_zero])
  rw [List.drop_zero] at hcov
  have hmapeq : (List.range (c.assets.length / limit + 1)).map (fun k => limit * k) =
      (List.range (c.assets.length / limit + 1)).map (fun k => 0 + limit * k) :=
    List.map_congr_left (fun k _ => by omega)
  rw [hmapeq]
  exact hcov

/-- Claim C2 witness: the theorem applied to the concrete three-asset client;
the request trace evaluates to `[0]`. -/
theorem pagination_requests_cover_witness :
    ((findUnlinkedAssets sampleClient).1 =
      (List.range (sampleClient.assets.length / limit + 1)).map (fun k => limit * k) ∧
    ((findUnlinkedAssets sampleClient).1.map
        (fun s => (sampleClient.assets.drop s).take limit)).flatten =
      sampleClient.assets) ∧
    (findUnlinkedAssets sampleClient).1 = [0] :=
  ⟨pagination_requests_cover sampleClient (fun _ => rfl) (fun _ _ => rfl), by decide⟩

/-- Claim C10: on a failure-free run the output id list equals the id list of
the unlinked assets in enumeration order — the output is the in-order filtered
image of the asset listing — and is therefore an order-preserving subsequence
of the full asset id listing; nothing is ever reordered. -/
theorem output_preserves_order (c : Client)
    (hf : ∀ s, c.fetchFails s = false)
    (he : ∀ a ∈ c.assets, c.entriesFails a.id = false) :
    (findUnlinkedAssets c).2.map (fun e => e.id) =
      (c.assets.filter (isUnlinked c)).map (fun a => a.id) ∧
    ((findUnlinkedAssets c).2.map (fun e => e.id)).Sublist
      (c.assets.map (fun a => a.id)) := by
  have h := (findUnlinkedAssets_clean c hf he).2
  have hids : (findUnlinkedAssets c).2.map (fun e => e.id) =
      (c.assets.filter (isUnlinked c)).map (fun a => a.id) := by
    rw [h, List.map_map]
    rfl
  exact ⟨hids, hids ▸ List.Sublist.map _ (List.filter_sublist _)⟩

/-- Claim C10 witness: the theorem applied to the concrete three-asset
client. -/
theorem output_preserves_order_witness :
    ((findUnlinkedAssets sampleClient).2.map (fun e => e.id) =
      (sampleClient.assets.filter (isUnlinked sampleClient)).map (fun a => a.id) ∧
    ((findUnlinkedAssets sampleClient).2.map (fun e => e.id)).Sublist
      (sampleClient.assets.map (fun a => a.id))) :=
  output_preserves_order sampleClient (fun _ => rfl) (fun _ _ => rfl)

/-- Claim C3 counterexample: a client whose single (short, first) batch holds
two assets, where the unlinked asset `a1` is processed and pushed before the
reference check for `a2` raises. The batch's processing fails (`processAssets`
returns `false`), the failing batch is the first one — so the entries
accumulated before the failing batch are `[]` — yet the scan result is the
non-empty list `[a1-entry]`: entries pushed earlier within the failing batch
are kept, contradicting the claim as stated. -/
theorem scan_error_counterexample :
    (processAssets errClient ((errClient.assets.drop 0).take limit)).2 = false ∧
    (findUnlinkedAssets errClient).1 = [0] ∧
    (findUnlinkedAssets errClient).2.map (fun e => e.id) = ["a1"] ∧
    (findUnlinkedAssets errClient).2 ≠ [] := by
  refine ⟨?_, ?_, ?_, ?_⟩ <;> decide

/-- Claim C3 (amended): if a reference check raises at the asset with index
`k` (all earlier checks clean, fetches clean), the scan stops — the request
trace ends with the failing batch `k / 100` — and the result is exactly the
unlinked-asset entries accumulated up to the point of failure, including the
entries from earlier assets of the failing batch (`assets.take k`); if instead
the fetch of batch `m` raises (earlier batches clean and full), the scan stops
with request trace `0 .. 100 * m` and the result is the entries accumulated
before the failing batch (`assets.take (100 * m)`). In both cases the total
scan returns that partial list unchanged, which the run then writes as the
report. -/
theorem scan_error_truncates :
    (∀ (c : Client) (k : Nat) (hf : ∀ s, c.fetchFails s = false)
      (hk : k < c.assets.length),
      c.entriesFails c.assets[k].id = true →
      (∀ a ∈ c.assets.take k, c.entriesFails a.id = false) →
      (findUnlinkedAssets c).1 = (List.range (k / limit + 1)).map (fun i => limit * i) ∧
      (findUnlinkedAssets c).2 =
        ((c.assets.take k).filter (isUnlinked c)).map (mkEntry c)) ∧
    (∀ (c : Client) (m : Nat), limit * m ≤ c.assets.length →
      c.fetchFails (limit * m) = true →
      (∀ j, j < m → c.fetchFails (limit * j) = false) →
      (∀ a ∈ c.assets.take (limit * m), c.entriesFails a.id = false) →
      (findUnlinkedAssets c).1 = (List.range (m + 1)).map (fun i => limit * i) ∧
      (findUnlinkedAssets c).2 =
        ((c.assets.take (limit * m)).filter (isUnlinked c)).map (mkEntry c)) := by
  constructor
  · intro c k hf hk hfail hok
    have h := scanLoop_err c k hf hk hfail hok c.assets.length 0 (by omega)
      (by simp only [limit]; omega)
    unfold findUnlinkedAssets
    constructor
    · rw [h.1, Nat.sub_zero]
      apply List.map_congr_left
      intro i _
      omega
    · rw [h.2, Nat.sub_zero, List.drop_zero]
  · intro c m hb hff hprev hclean
    have hm : m ≤ c.assets.length := by
      simp only [limit] at hb
      omega
    have h := scanLoop_fetch_err c m hb hff hprev hclean c.assets.length 0 (by omega)
      (by omega)
    have h0 : limit * 0 = 0 := by omega
    rw [h0] at h
    unfold findUnlinkedAssets
    constructor
    · rw [h.1, Nat.sub_zero]
      apply List.map_congr_left
      intro i _
      rw [Nat.zero_add]
    · rw [h.2, Nat.sub_zero, List.drop_zero]

/-- Claim C3 (amended) witness: the reference-check half of the theorem
applied to the concrete failing client with `k = 1`. -/
theorem scan_error_truncates_witness :
    (findUnlinkedAssets errClient).1 =
      (List.range (1 / limit + 1)).map (fun i => limit * i) ∧
    (findUnlinkedAssets errClient).2 =
      ((errClient.assets.take 1).filter (isUnlinked errClient)).map (mkEntry errClient) :=
  scan_error_truncates.1 errClient 1 (fun _ => rfl) (by decide) (by decide) (by decide)

/-- Claim C7 counterexample: an asset whose raw title is present but is the
empty string. The claim says the raw title is used, i.e. the entry title would
be `""`; the code's `||` fallback chain treats the empty string as falsy and
produces `"Untitled"` instead. -/
theorem title_fallback_counterexample :
    titleCexAsset.title = JSTitle.str "" ∧
    (mkEntry sampleClient titleCexAsset).title = JSTitle.str "Untitled" ∧
    (mkEntry sampleClient titleCexAsset).title ≠ JSTitle.str "" := by
  refine ⟨rfl, ?_, ?_⟩ <;> decide

/-- Claim C7 (amended): the entry title is the localized title when present
and non-empty; otherwise the raw string title when present and non-empty;
otherwise, when the title field is a localized object whose localized value is
empty or absent, the (truthy) object itself; otherwise the literal
`"Untitled"`. -/
theorem title_fallback_chain :
    (∀ (c : Client) (a : Asset) (s : String), s ≠ "" →
      a.title = JSTitle.loc (some s) → (mkEntry c a).title = JSTitle.str s) ∧
    (∀ (c : Client) (a : Asset) (s : String), s ≠ "" →
      a.title = JSTitle.str s → (mkEntry c a).title = JSTitle.str s) ∧
    (∀ (c : Client) (a : Asset),
      a.title = JSTitle.undef → (mkEntry c a).title = JSTitle.str "Untitled") ∧
    (∀ (c : Client) (a : Asset),
      a.title = JSTitle.str "" → (mkEntry c a).title = JSTitle.str "Untitled") ∧
    (∀ (c : Client) (a : Asset),
      a.title = JSTitle.loc (some "") → (mkEntry c a).title = JSTitle.loc (some "")) ∧
    (∀ (c : Client) (a : Asset),
      a.title = JSTitle.loc none → (mkEntry c a).title = JSTitle.loc none) := by
  refine ⟨?_, ?_, ?_, ?_, ?_, ?_⟩
  · intro c a s hs ht
    simp [mkEntry, assetTitleOf, ht, hs]
  · intro c a s hs ht
    simp [mkEntry, assetTitleOf, ht, hs]
  · intro c a ht
    simp [mkEntry, assetTitleOf, ht]
  · intro c a ht
    simp [mkEntry, assetTitleOf, ht]
  · intro c a ht
    simp [mkEntry, assetTitleOf, ht]
  · intro c a ht
    simp [mkEntry, assetTitleOf, ht]

/-- Claim C7 (amended) witness: the localized-title clause applied to a
concrete asset with localized title `"Hero"`. -/
theorem title_fallback_chain_witness :
    (mkEntry sampleClient locTitleAsset).title = JSTitle.str "Hero" :=
  title_fallback_chain.1 sampleClient locTitleAsset "Hero" (by decide) rfl

/-- Claim C8: for every space identifier, environment identifier and asset
identifier, the helper and the deep link stored in every report entry equal
the fixed URL template with the three values substituted, byte for byte. -/
theorem deep_link_template :
    (∀ spaceId assetId environmentId : String,
      getContentfulWebAppUrl spaceId assetId environmentId =
        "https://app.contentful.com/spaces/" ++ spaceId ++ "/environments/" ++
          environmentId ++ "/assets/" ++ assetId) ∧
    (∀ (c : Client) (a : Asset),
      (mkEntry c a).contentfulUrl =
        "https://app.contentful.com/spaces/" ++ c.spaceId ++ "/environments/" ++
          c.environmentId ++ "/assets/" ++ a.id) ∧
    getContentfulWebAppUrl "spc" "ast" "env" =
      "https://app.contentful.com/spaces/spc/environments/env/assets/ast" :=
  ⟨fun _ _ _ => rfl, fun _ _ => rfl, by decide⟩

/-- Claim C9: when the space identifier or the access credential is absent at
startup, the run exits with code 1, performs no network request and writes no
output file; and an absent environment identifier defaults to `"master"`. -/
theorem missing_config_exits :
    (∀ (e : Env) (c : Client), e.SPACE_ID = none ∨ e.ACCESS_TOKEN = none →
      runProgram e c = (1, [], none)) ∧
    (∀ e : Env, e.ENVIRONMENT = none → effectiveEnvironment e = "master") := by
  constructor
  · rintro e c (h | h) <;> simp [runProgram, jsStrFalsy, h]
  · intro e h
    simp [effectiveEnvironment, jsStrOr, h]

/-- Claim C9 witness: the theorem applied to an environment with an absent
space identifier. -/
theorem missing_config_exits_witness :
    runProgram envMissing sampleClient = (1, [], none) ∧
    effectiveEnvironment envMissing = "master" :=
  ⟨missing_config_exits.1 envMissing sampleClient (Or.inl rfl),
   missing_config_exits.2 envMissing rfl⟩

end UnlinkedAssets
